import Mathlib

/-!
Verification of the revline session-security subsystem.

Shallow embedding of the code under `api/app/core/security.py`,
`api/app/core/rate_limit.py`, `api/app/core/token_family.py` and
`api/app/routers/auth.py`.  The shared Redis store is modelled as an
association list from string keys to string values together with the
remaining TTL in seconds; each Redis client call of the source
(`get`, `delete`, `setex`, `incr`, `expire`, `scan`) becomes an explicit
operation on that state.  Ambient nondeterminism of the source (the
current UTC time `_now_ts()` and the random draw `uuid.uuid4()`) is made
explicit as parameters of the embedded functions.
-/

namespace Revline

/-- An HTTP error as raised by `HTTPException(status_code=..., detail=...)`
in the source; the `detail` string distinguishes the failure reasons. -/
structure HTTPError where
  status : Nat
  detail : String
deriving DecidableEq, Repr

/-- The shared key-value store (Redis).  Each entry is a key, its string
value, and the TTL in seconds that was attached when the entry was written.
Lookup takes the first entry with a matching key; the write operations
below keep at most one entry per key. -/
structure Store where
  entries : List (String × String × Nat)
deriving DecidableEq, Repr

/-- Redis `GET key`: the value stored at `key`, if present. -/
def Store.get (s : Store) (k : String) : Option String :=
  (s.entries.find? (fun e => e.1 == k)).map (fun e => e.2.1)

/-- TTL bookkeeping: the TTL recorded for `key`, if present. -/
def Store.ttlOf (s : Store) (k : String) : Option Nat :=
  (s.entries.find? (fun e => e.1 == k)).map (fun e => e.2.2)

/-- Redis `DEL key`: remove every entry stored at `key` (a no-op when the
key is absent). -/
def Store.del (s : Store) (k : String) : Store :=
  ⟨s.entries.filter (fun e => e.1 != k)⟩

/-- Redis `SETEX key ttl value`: store `value` at `key` with expiry `ttl`,
overwriting any previous entry. -/
def Store.setex (s : Store) (k : String) (ttl : Nat) (v : String) : Store :=
  ⟨(k, v, ttl) :: (s.del k).entries⟩

-- Basic lemmas on the store operations -------------------------------------

theorem List.find?_filter_of_key_ne {α : Type} (l : List (String × α))
    (k k₂ : String) (h : k₂ ≠ k) :
    (l.filter (fun e => e.1 != k)).find? (fun e => e.1 == k₂) =
      l.find? (fun e => e.1 == k₂) := by
  induction l with
  | nil => rfl
  | cons hd tl ih =>
    by_cases hhd : hd.1 = k
    · have h1 : (hd.1 != k) = false := by simp [hhd]
      have h2 : (hd.1 == k₂) = false := by
        simp [hhd]
        exact fun hc => h hc.symm
      simp [List.filter, List.find?, h1, h2, ih]
    · have h1 : (hd.1 != k) = true := by simp [hhd]
      simp only [List.filter, h1, List.find?]
      by_cases h2 : hd.1 = k₂
      · simp [h2]
      · have h3 : (hd.1 == k₂) = false := by simp [h2]
        simp [h3, ih]

theorem List.find?_filter_none {α : Type} (l : List (String × α))
    (p : String × α → Bool) (k : String) (h : ∀ e, p e = true → ¬(e.1 = k)) :
    (l.filter p).find? (fun e => e.1 == k) = none := by
  induction l with
  | nil => rfl
  | cons hd tl ih =>
    by_cases hp : p hd = true
    · have h2 : (hd.1 == k) = false := by
        simp only [beq_eq_false_iff_ne, ne_eq]
        exact h hd hp
      simp [List.filter, hp, List.find?, h2, ih]
    · have hp2 : p hd = false := Bool.eq_false_iff.mpr hp
      simp [List.filter, hp2, ih]

theorem Store.get_del_self (s : Store) (k : String) :
    (s.del k).get k = none := by
  unfold Store.get Store.del
  rw [List.find?_filter_none _ _ _ (fun e hp hk => by simp [hk] at hp)]
  rfl

theorem Store.get_del_ne (s : Store) (k k₂ : String) (h : k₂ ≠ k) :
    (s.del k).get k₂ = s.get k₂ := by
  unfold Store.get Store.del
  rw [List.find?_filter_of_key_ne _ _ _ h]

theorem Store.get_setex_self (s : Store) (k : String) (ttl : Nat) (v : String) :
    (s.setex k ttl v).get k = some v := by
  unfold Store.get Store.setex
  simp [List.find?]

theorem Store.get_setex_ne (s : Store) (k k₂ : String) (ttl : Nat) (v : String)
    (h : k₂ ≠ k) :
    (s.setex k ttl v).get k₂ = s.get k₂ := by
  unfold Store.get Store.setex
  have h2 : (k == k₂) = false := by
    simp only [beq_eq_false_iff_ne, ne_eq]
    exact fun hc => h hc.symm
  simp only [List.find?, h2]
  exact congrArg _ (List.find?_filter_of_key_ne _ _ _ h)

theorem Store.ttlOf_setex_self (s : Store) (k : String) (ttl : Nat) (v : String) :
    (s.setex k ttl v).ttlOf k = some ttl := by
  unfold Store.ttlOf Store.setex
  simp [List.find?]

-- String key helpers --------------------------------------------------------

theorem String.append_left_cancel {a b c : String} (h : a ++ b = a ++ c) :
    b = c := by
  apply String.ext
  have hd : a.data ++ b.data = a.data ++ c.data := by
    rw [← String.data_append, ← String.data_append, h]
  exact List.append_cancel_left hd

theorem String.append_ne_of_ne {a b c : String} (h : b ≠ c) :
    a ++ b ≠ a ++ c :=
  fun hc => h (String.append_left_cancel hc)

-- Token codec (api/app/core/security.py) -----------------------------------

/-- The decoded JWT payload: a finite map of the claims the system uses.
Absent claims are `none` (`payload.get(...)` in the source returns `None`). -/
structure Payload where
  sub : Option String
  type : Option String
  jti : Option String
  iat : Option Nat
  exp : Option Nat
deriving DecidableEq, Repr

/-- A signed JWT.  `jwt.encode(payload, secret, alg)` is modelled as the
payload together with the key it was signed with; signature verification
in `jwt.decode` then checks that the signing key equals the configured
secret. -/
structure Token where
  payload : Payload
  signedWith : String
deriving DecidableEq, Repr

/-- The configured signing secret `settings.jwt_secret` (an opaque
deployment value; any fixed string represents it). -/
def jwtSecret : String := "JWT_SECRET"

/-- `_ACCESS_TTL`: `settings.access_token_ttl.total_seconds()` with the
default `jwt_expire_minutes = 60` (config.py). -/
def accessTTLSeconds : Nat := 60 * 60

/-- `_REFRESH_TTL`: `settings.refresh_token_ttl.total_seconds()` with the
default `refresh_token_expire_days = 7` (config.py). -/
def refreshTTLSeconds : Nat := 7 * 24 * 3600

/-- Python truthiness of an optional string: `None` and the empty string
are falsy (`if not sub: ...`). -/
def pyTruthy : Option String → Bool
  | none => false
  | some s => s != ""

/-- `_create_token(sub, ttl_seconds, token_type)` of security.py.  The
fresh `jti` (`str(uuid.uuid4())` in the source) and the current time
`_now_ts()` are explicit parameters.  Returns `(token, jti)`. -/
def createToken (sub : String) (ttlSeconds : Nat) (tokenType : String)
    (jti : String) (now : Nat) : Token × String :=
  (⟨⟨some sub, some tokenType, some jti, some now, some (now + ttlSeconds)⟩,
    jwtSecret⟩, jti)

/-- `create_access(sub)` of security.py. -/
def create_access (sub : String) (jti : String) (now : Nat) : Token × String :=
  createToken sub accessTTLSeconds "access" jti now

/-- `create_refresh(sub)` of security.py. -/
def create_refresh (sub : String) (jti : String) (now : Nat) : Token × String :=
  createToken sub refreshTTLSeconds "refresh" jti now

/-- `decode_token(token)` of security.py: `jwt.decode` verifies the
signature and, when an `exp` claim is present, that it has not elapsed;
any failure surfaces as `HTTPException(401, "Invalid token")`. -/
def decode_token (t : Token) (now : Nat) : Except HTTPError Payload :=
  if t.signedWith != jwtSecret then .error ⟨401, "Invalid token"⟩
  else
    match t.payload.exp with
    | some e => if e ≤ now then .error ⟨401, "Invalid token"⟩ else .ok t.payload
    | none => .ok t.payload

/-- `verify_access_token(token)` of security.py: decode, then reject with
`401 "Wrong token type"` when a `type` claim is present and differs from
`"access"`, then reject with `401 "Invalid token"` when the `sub` claim is
absent or empty, else return the payload. -/
def verify_access_token (t : Token) (now : Nat) : Except HTTPError Payload :=
  match decode_token t now with
  | .error e => .error e
  | .ok payload =>
    match payload.type with
    | some tokenType =>
      if tokenType != "access" then .error ⟨401, "Wrong token type"⟩
      else if pyTruthy payload.sub then .ok payload
      else .error ⟨401, "Invalid token"⟩
    | none =>
      if pyTruthy payload.sub then .ok payload
      else .error ⟨401, "Invalid token"⟩

-- Auth endpoints (api/app/routers/auth.py) ---------------------------------

/-- The successful response body of `POST /auth/refresh` together with the
rotated refresh cookie set on the response. -/
structure RefreshSuccess where
  access_token : Token
  token_type : String
  expires_in : Nat
  cookie : Token
deriving DecidableEq, Repr

deriving instance DecidableEq for Except

/-- Everything observable about one run of the `refresh` endpoint: the
HTTP outcome, the resulting store, and the log lines emitted. -/
structure RefreshResult where
  outcome : Except HTTPError RefreshSuccess
  store : Store
  logs : List String
deriving DecidableEq, Repr

/-- The `refresh` endpoint of auth.py (lines 175-274).  Parameters beyond
the request state: `strategy` is `settings.auth_refresh_strategy`;
`cookie` is the `revline_refresh` request cookie; `s` the store; `now`
the current time; `accessJti`/`refreshJti` the uuid draws consumed by
`create_access`/`create_refresh`.  The per-step order of checks and store
calls follows the source: decode, sub check, type check, jti check,
`GET refresh:old_jti`, subject match, `DEL refresh:old_jti`, mint tokens,
`SETEX refresh:new_jti`. -/
def refresh (strategy : String) (cookie : Option Token) (s : Store)
    (now : Nat) (accessJti refreshJti : String) : RefreshResult :=
  match cookie with
  | none => ⟨.error ⟨401, "No refresh cookie"⟩, s, []⟩
  | some tok =>
    match decode_token tok now with
    | .error e => ⟨.error e, s, []⟩
    | .ok payload =>
      if pyTruthy payload.sub = false then
        ⟨.error ⟨401, "Invalid token"⟩, s, []⟩
      else if payload.type != some "refresh" then
        ⟨.error ⟨401, "Wrong token type"⟩, s, []⟩
      else if pyTruthy payload.jti = false then
        ⟨.error ⟨401, "Invalid refresh token"⟩, s, []⟩
      else
        let sub := payload.sub.getD ""
        let old_jti := payload.jti.getD ""
        let redis_key := "refresh:" ++ old_jti
        match s.get redis_key with
        | none =>
          -- token already consumed or expired: possible replay attack
          let logs :=
            ["Refresh token reuse detected. Strategy: " ++ strategy] ++
              (if strategy = "nuclear" then
                ["Nuclear strategy: token reuse detected, session invalidated"]
              else [])
          ⟨.error ⟨401, "Token already used or revoked"⟩, s, logs⟩
        | some stored_sub =>
          if stored_sub != sub then
            ⟨.error ⟨401, "Invalid token"⟩, s,
              ["User ID mismatch in refresh token"]⟩
          else
            let s1 := s.del redis_key
            let access_token := (create_access sub accessJti now).1
            let newRefresh := create_refresh sub refreshJti now
            let s2 := s1.setex ("refresh:" ++ newRefresh.2) refreshTTLSeconds sub
            ⟨.ok ⟨access_token, "bearer", accessTTLSeconds, newRefresh.1⟩,
              s2, []⟩

/-- The successful response of `POST /auth/login`: the body fields, the
optional `refresh_token` body field (present when cookie mode is
disabled), and the refresh cookie set on the response (present when
cookie mode is enabled). -/
structure LoginSuccess where
  access_token : Token
  token_type : String
  expires_in : Nat
  refresh_token : Option Token
  cookie : Option Token
deriving DecidableEq, Repr

/-- The tail of the `login` endpoint of auth.py (lines 119-140), after the
credential check has succeeded for the user with id `uid`.  When
`cookieMode` (`settings.auth_cookie_mode`) is on, the endpoint writes the
refresh session record `SETEX refresh:{jti} ttl uid` and sets the cookie;
when it is off, the refresh token is put into the response body and no
store write happens. -/
def login (cookieMode : Bool) (uid : String) (accessJti refreshJti : String)
    (now : Nat) (s : Store) : LoginSuccess × Store :=
  let access_token := (create_access uid accessJti now).1
  let newRefresh := create_refresh uid refreshJti now
  if cookieMode then
    let s2 := s.setex ("refresh:" ++ newRefresh.2) refreshTTLSeconds uid
    (⟨access_token, "bearer", accessTTLSeconds, none, some newRefresh.1⟩, s2)
  else
    (⟨access_token, "bearer", accessTTLSeconds, some newRefresh.1, none⟩, s)

-- Interleaving model of concurrent refresh requests -------------------------

/-- Program counter of one in-flight refresh request, split at its store
round-trips exactly as the source is: `pGet` is about to run
`stored_sub = await r.get(redis_key)` (auth.py line 227), `pCheck v` holds
the observed value and performs the pure reuse/subject checks (lines
229-256), `pDel` is about to run `await r.delete(redis_key)` (line 259),
`pSetex` is about to run `await r.setex(...)` for the rotated token
(line 266), `pDone` returns the new pair, `pFail e` has raised `e`. -/
inductive RPhase where
  | pGet
  | pCheck (observed : Option String)
  | pDel
  | pSetex
  | pDone
  | pFail (e : HTTPError)
deriving DecidableEq, Repr

/-- One in-flight refresh request: the claims of the presented (already
decoded) refresh token and its current phase.  `newJti` is the uuid draw
its rotation will use. -/
structure RefreshReq where
  sub : String
  jti : String
  newJti : String
  phase : RPhase
deriving DecidableEq, Repr

/-- One atomic step of a refresh request against the shared store.  A
request in a terminal phase leaves everything unchanged. -/
def stepReq (s : Store) (r : RefreshReq) : Store × RefreshReq :=
  match r.phase with
  | .pGet => (s, { r with phase := .pCheck (s.get ("refresh:" ++ r.jti)) })
  | .pCheck none =>
      (s, { r with phase := .pFail ⟨401, "Token already used or revoked"⟩ })
  | .pCheck (some v) =>
      if v = r.sub then (s, { r with phase := .pDel })
      else (s, { r with phase := .pFail ⟨401, "Invalid token"⟩ })
  | .pDel => (s.del ("refresh:" ++ r.jti), { r with phase := .pSetex })
  | .pSetex =>
      (s.setex ("refresh:" ++ r.newJti) refreshTTLSeconds r.sub,
        { r with phase := .pDone })
  | .pDone => (s, r)
  | .pFail _ => (s, r)

/-- Run two concurrent refresh requests under a schedule: `true` steps
request `a`, `false` steps request `b`. -/
def runTwo (s : Store) (a b : RefreshReq) : List Bool → Store × RefreshReq × RefreshReq
  | [] => (s, a, b)
  | true :: rest =>
    let sa := stepReq s a
    runTwo sa.1 sa.2 b rest
  | false :: rest =>
    let sb := stepReq s b
    runTwo sb.1 a sb.2 rest

-- Rate limiter (api/app/core/rate_limit.py) --------------------------------

/-- The Redis state seen by the rate limiter: integer counters.  Each
entry is a key, its integer value, and its expiry (`none` = no expiry
set).  Redis stores these as strings and `INCR` parses them; the model
keeps them as naturals directly. -/
structure CounterStore where
  entries : List (String × Nat × Option Nat)
deriving DecidableEq, Repr

/-- Counter value at `key`, if present (`GET key`). -/
def CounterStore.get (s : CounterStore) (k : String) : Option Nat :=
  (s.entries.find? (fun e => e.1 == k)).map (fun e => e.2.1)

/-- Expiry recorded at `key`, if the key is present. -/
def CounterStore.expiryOf (s : CounterStore) (k : String) : Option (Option Nat) :=
  (s.entries.find? (fun e => e.1 == k)).map (fun e => e.2.2)

/-- Redis `INCR key`: increment the counter at `key` (creating it at 1
with no expiry when absent) and return the post-increment value. -/
def CounterStore.incr (s : CounterStore) (k : String) : Nat × CounterStore :=
  match s.get k with
  | some v =>
    (v + 1,
      ⟨s.entries.map (fun e => if e.1 == k then (e.1, v + 1, e.2.2) else e)⟩)
  | none => (1, ⟨(k, 1, none) :: s.entries⟩)

/-- Redis `EXPIRE key seconds`. -/
def CounterStore.expire (s : CounterStore) (k : String) (seconds : Nat) :
    CounterStore :=
  ⟨s.entries.map (fun e => if e.1 == k then (e.1, e.2.1, some seconds) else e)⟩

/-- Redis `SETEX key seconds value` on an integer counter. -/
def CounterStore.setex (s : CounterStore) (k : String) (seconds : Nat)
    (v : Nat) : CounterStore :=
  ⟨(k, v, some seconds) :: s.entries.filter (fun e => e.1 != k)⟩

/-- Outcome of the pure part of `RateLimiter.__call__` on one bucket or a
list of buckets: either the request may proceed or it is rejected with a
`Retry-After` value of `retryAfter` seconds (HTTP 429). -/
inductive LimitOutcome where
  | allowed (s : CounterStore)
  | rejected (retryAfter : Nat) (s : CounterStore)
deriving DecidableEq, Repr

/-- The body of the per-key loop of `RateLimiter.__call__` (rate_limit.py
lines 97-136): `INCR` the bucket counter, set its expiry to the window on
the first hit, and on exceeding the limit read the penalty counter
(0 when absent), compute `multiplier = min(2 ** penalty_count, 8)` and
`retry_after = seconds * multiplier`, write back `penalty_count + 1` with
expiry `seconds * 10`, and reject with 429. -/
def checkBucket (times seconds : Nat) (s : CounterStore) (key : String) :
    LimitOutcome :=
  let r1 := s.incr key
  let current := r1.1
  let s1 := if current == 1 then r1.2.expire key seconds else r1.2
  if current > times then
    let penalty_key := key ++ ":penalty"
    let penalty_count := (s1.get penalty_key).getD 0
    let multiplier := min (2 ^ penalty_count) 8
    let retry_after := seconds * multiplier
    let s2 := s1.setex penalty_key (seconds * 10) (penalty_count + 1)
    .rejected retry_after s2
  else .allowed s1

/-- The loop over all applicable bucket keys (rate_limit.py line 97):
checks stop at the first bucket over its limit. -/
def checkBuckets (times seconds : Nat) (s : CounterStore) :
    List String → LimitOutcome
  | [] => .allowed s
  | k :: ks =>
    match checkBucket times seconds s k with
    | .allowed s1 => checkBuckets times seconds s1 ks
    | .rejected ra s1 => .rejected ra s1

/-- The module-level Redis client of rate_limit.py together with its
health: when `healthy` is false every operation on it raises
`RedisError`. -/
structure RedisClient where
  state : CounterStore
  healthy : Bool
deriving DecidableEq, Repr

/-- Observable outcome of `RateLimiter.__call__`: the request proceeds
(the dependency returns `None`) or a 429 with a `Retry-After` value is
raised. -/
inductive CallOutcome where
  | proceed (client : Option RedisClient)
  | tooManyRequests (retryAfter : Nat) (client : Option RedisClient)
deriving DecidableEq, Repr

/-- `RateLimiter.__call__` (rate_limit.py lines 72-144).  When the module
client is uninitialized (`_redis_client is None`, line 77) the request is
allowed.  When the client raises `RedisError` (modelled as `healthy =
false`: the first store call raises, leaving the state unchanged) the
`except RedisError` handler at line 138 returns, allowing the request.
An `HTTPException` from a bucket over its limit is re-raised (line 142). -/
def rateLimiterCall (client : Option RedisClient) (times seconds : Nat)
    (keys : List String) : CallOutcome :=
  match client with
  | none => .proceed none
  | some c =>
    if c.healthy then
      match checkBuckets times seconds c.state keys with
      | .allowed s1 => .proceed (some ⟨s1, true⟩)
      | .rejected ra s1 => .tooManyRequests ra (some ⟨s1, true⟩)
    else .proceed (some c)

-- Token family manager (api/app/core/token_family.py) -----------------------

/-- Key of the family-to-subject mapping: `family:{family_id}`. -/
def famKey (family_id : String) : String := "family:" ++ family_id

/-- Key of a refresh record written by `TokenFamily.store_refresh_token`:
`refresh:{jti}:family:{family_id}`. -/
def tokenKey (jti family_id : String) : String :=
  "refresh:" ++ jti ++ ":family:" ++ family_id

/-- Redis glob match for the pattern `refresh:*:family:{family_id}` used
by `TokenFamily.revoke_family` (line 83): the key decomposes as
`refresh:` ++ mid ++ `:family:` ++ family_id, i.e. it has that prefix and
suffix and is long enough for them not to overlap. -/
def matchesFamilyPattern (family_id key : String) : Bool :=
  "refresh:".data.isPrefixOf key.data &&
    (":family:" ++ family_id).data.isSuffixOf key.data &&
    (16 + family_id.length ≤ key.length)

/-- `TokenFamily.revoke_family(family_id)` (token_family.py lines 69-90):
delete the family record `family:{family_id}`, then SCAN for every key
matching `refresh:*:family:{family_id}` and delete them all.  The cursor
loop of the source visits every key of the store; it is modelled as one
complete pass. -/
def revoke_family (s : Store) (family_id : String) : Store :=
  let s1 := s.del (famKey family_id)
  ⟨s1.entries.filter (fun e => !(matchesFamilyPattern family_id e.1))⟩

/-- `TokenFamily.store_refresh_token(jti, family_id, user_id, ttl)`
(token_family.py lines 92-107). -/
def store_refresh_token (s : Store) (jti family_id user_id : String)
    (ttl_seconds : Nat) : Store :=
  s.setex (tokenKey jti family_id) ttl_seconds (user_id ++ ":" ++ family_id)

/-- `TokenFamily.create_family(user_id)` (token_family.py lines 34-50);
the fresh uuid draw is the explicit `family_id` parameter and the TTL
`settings.token_family_ttl_days * 24 * 3600` the `ttl_seconds` one. -/
def create_family (s : Store) (user_id family_id : String)
    (ttl_seconds : Nat) : String × Store :=
  (family_id, s.setex (famKey family_id) ttl_seconds user_id)

-- Claim theorems ------------------------------------------------------------

/-- C7: for every subject `s`, decoding the token returned by
`create_access s` yields claims with `sub = s`, `type = "access"`, `jti`
equal to the jti returned alongside the token, integer `iat` equal to the
issuance time, and `exp = iat + accessTTLSeconds`; likewise for
`create_refresh s` with `type = "refresh"` and `exp = iat +
refreshTTLSeconds`. -/
theorem create_token_roundtrip (s jti₁ jti₂ : String) (now : Nat) :
    decode_token (create_access s jti₁ now).1 now =
      .ok ⟨some s, some "access", some (create_access s jti₁ now).2,
        some now, some (now + accessTTLSeconds)⟩ ∧
    decode_token (create_refresh s jti₂ now).1 now =
      .ok ⟨some s, some "refresh", some (create_refresh s jti₂ now).2,
        some now, some (now + refreshTTLSeconds)⟩ := by
  have h1 : ¬(now + accessTTLSeconds ≤ now) := by
    simp [accessTTLSeconds]
  have h2 : ¬(now + refreshTTLSeconds ≤ now) := by
    simp [refreshTTLSeconds]
  constructor <;>
    simp [decode_token, create_access, create_refresh, createToken, h1, h2]

/-- C8 counterexample: jti issuance is `str(uuid.uuid4())`, an external
random draw with no cross-call bookkeeping; with the draw made explicit,
two distinct calls (different constructor, subject and time) whose draws
coincide return the same jti.  Nothing in `_create_token` enforces the
claimed guaranteed (non-statistical) uniqueness. -/
theorem jti_collision_on_repeated_draw :
    (create_access "alice" "u0" 0).2 = (create_refresh "bob" "u0" 5).2 := rfl

/-- C8 (amended): the jti returned by `create_access`/`create_refresh` is
exactly the uuid draw consumed by the call, so jtis of two calls are
distinct precisely when the underlying uuid4 draws are distinct: the
uniqueness is that of the random source (statistical), not a structural
guarantee of the code. -/
theorem jti_distinct_iff_draws_distinct (s₁ s₂ j₁ j₂ : String) (t₁ t₂ : Nat)
    (h : j₁ ≠ j₂) :
    (create_access s₁ j₁ t₁).2 ≠ (create_access s₂ j₂ t₂).2 ∧
    (create_access s₁ j₁ t₁).2 ≠ (create_refresh s₂ j₂ t₂).2 ∧
    (create_refresh s₁ j₁ t₁).2 ≠ (create_refresh s₂ j₂ t₂).2 :=
  ⟨h, h, h⟩

/-- C8 witness: the amended claim at concrete draws `"u1" ≠ "u2"`. -/
theorem jti_distinct_iff_draws_distinct_witness :
    ("u1" : String) ≠ "u2" ∧
    (create_access "1" "u1" 0).2 ≠ (create_refresh "1" "u2" 0).2 :=
  ⟨by decide, (jti_distinct_iff_draws_distinct "1" "1" "u1" "u2" 0 0
    (by decide)).2.1⟩

/-- C3 counterexample: a validly signed, unexpired token whose payload has
no `type` claim at all (so its type claim is not equal to `"access"`) is
accepted by `verify_access_token` instead of failing with
`WrongTokenType`: the source only rejects when a `type` claim is present
and differs from `"access"` (`if token_type is not None and token_type !=
"access"`, security.py line 229). -/
theorem verify_access_accepts_missing_type :
    verify_access_token ⟨⟨some "1", none, none, none, none⟩, jwtSecret⟩ 0 =
      .ok ⟨some "1", none, none, none, none⟩ := rfl

/-- C3 (amended): for every token that `decode_token` accepts,
`verify_access_token` fails with `401 "Wrong token type"` if the decoded
`type` claim is present and not equal to `"access"`, fails with `401
"Invalid token"` (the MissingSubject case of the taxonomy) if `sub` is
absent or empty, and otherwise (in particular when the `type` claim is
absent) returns the decoded claims. -/
theorem verify_access_token_checks (t : Token) (now : Nat) (p : Payload)
    (hdec : decode_token t now = .ok p) :
    (∀ ty, p.type = some ty → ty ≠ "access" →
      verify_access_token t now = .error ⟨401, "Wrong token type"⟩) ∧
    ((p.type = none ∨ p.type = some "access") → pyTruthy p.sub = false →
      verify_access_token t now = .error ⟨401, "Invalid token"⟩) ∧
    ((p.type = none ∨ p.type = some "access") → pyTruthy p.sub = true →
      verify_access_token t now = .ok p) := by
  unfold verify_access_token
  rw [hdec]
  refine ⟨?_, ?_, ?_⟩
  · intro ty hty hne
    have hb : (ty != "access") = true := bne_iff_ne.mpr hne
    simp [hty, hb]
  · intro hty hsub
    rcases hty with h | h <;> simp [h, hsub]
  · intro hty hsub
    rcases hty with h | h <;> simp [h, hsub]

/-- C3 witness: the amended claim applied to a concrete refresh-typed
token (rejected with Wrong token type) via its first conjunct. -/
theorem verify_access_token_checks_witness :
    verify_access_token ⟨⟨some "1", some "refresh", none, none, none⟩,
      jwtSecret⟩ 0 = .error ⟨401, "Wrong token type"⟩ :=
  (verify_access_token_checks ⟨⟨some "1", some "refresh", none, none, none⟩,
      jwtSecret⟩ 0 ⟨some "1", some "refresh", none, none, none⟩ rfl).1
    "refresh" rfl (by decide)

/-- C4 counterexample: with cookie mode disabled, a successful login
returns the refresh token in the response body but writes no refresh
session record: starting from the empty store, the store is left empty
and the lookup of the new jti finds nothing (the `SETEX` at auth.py line
130 sits inside `if settings.auth_cookie_mode:`). -/
theorem login_body_mode_writes_no_record :
    (login false "1" "a" "r" 0 ⟨[]⟩).1.refresh_token =
      some (create_refresh "1" "r" 0).1 ∧
    (login false "1" "a" "r" 0 ⟨[]⟩).2.get ("refresh:" ++ "r") = none := by
  constructor
  · rfl
  · rfl

/-- C4 (amended): a successful login creates the refresh session record
`refresh:{jti} → subject` with TTL equal to the refresh token lifetime
only when cookie mode is enabled (in which case the refresh token is
delivered via the cookie); when cookie mode is disabled the refresh token
is returned in the response body and the store is left unchanged — no
session record is created. -/
theorem login_record_iff_cookie_mode (uid aJti rJti : String) (now : Nat)
    (s : Store) :
    ((login true uid aJti rJti now s).2.get ("refresh:" ++ rJti) = some uid ∧
     (login true uid aJti rJti now s).2.ttlOf ("refresh:" ++ rJti) =
       some refreshTTLSeconds ∧
     (login true uid aJti rJti now s).1.cookie =
       some (create_refresh uid rJti now).1 ∧
     (login true uid aJti rJti now s).1.refresh_token = none) ∧
    ((login false uid aJti rJti now s).2 = s ∧
     (login false uid aJti rJti now s).1.refresh_token =
       some (create_refresh uid rJti now).1 ∧
     (login false uid aJti rJti now s).1.cookie = none) := by
  refine ⟨⟨?_, ?_, rfl, rfl⟩, rfl, rfl, rfl⟩
  · exact Store.get_setex_self s ("refresh:" ++ rJti) refreshTTLSeconds uid
  · exact Store.ttlOf_setex_self s ("refresh:" ++ rJti) refreshTTLSeconds uid

-- Decode inversion helpers --------------------------------------------------

theorem decode_token_ok_payload {t : Token} {now : Nat} {p : Payload}
    (h : decode_token t now = .ok p) : p = t.payload := by
  unfold decode_token at h
  by_cases hs : (t.signedWith != jwtSecret) = true
  · simp [hs] at h
  · simp only [hs, if_false, Bool.false_eq_true] at h
    cases he : t.payload.exp with
    | none => rw [he] at h; exact (Except.ok.inj h).symm
    | some e =>
      rw [he] at h
      by_cases hle : e ≤ now
      · simp [hle] at h
      · simp only [hle, if_false] at h
        exact (Except.ok.inj h).symm

theorem decode_token_ok_later {t : Token} {now : Nat} {p : Payload}
    (h : decode_token t now = .ok p) (now₂ : Nat)
    (hexp : ∀ e, t.payload.exp = some e → ¬(e ≤ now₂)) :
    decode_token t now₂ = .ok t.payload := by
  unfold decode_token at h ⊢
  by_cases hs : (t.signedWith != jwtSecret) = true
  · simp [hs] at h
  · simp only [hs, if_false, Bool.false_eq_true]
    cases he : t.payload.exp with
    | none => rfl
    | some e => simp [hexp e he]

/-- C10: the observable behavior of the refresh endpoint — its HTTP
outcome and its store mutations — is the same for every value of
`settings.auth_refresh_strategy` (in particular for `"nuclear"` and
`"family"`): the strategy is consulted only to choose log messages in the
reuse branch, and the endpoint never calls any `TokenFamily` operation
(`create_family`, `store_refresh_token`, `get_token_family`,
`revoke_family`, `delete_token` appear nowhere in `refresh`). -/
theorem refresh_ignores_strategy (strat₁ strat₂ : String)
    (cookie : Option Token) (s : Store) (now : Nat) (aJti rJti : String) :
    (refresh strat₁ cookie s now aJti rJti).outcome =
      (refresh strat₂ cookie s now aJti rJti).outcome ∧
    (refresh strat₁ cookie s now aJti rJti).store =
      (refresh strat₂ cookie s now aJti rJti).store := by
  cases cookie with
  | none => exact ⟨rfl, rfl⟩
  | some tok =>
    unfold refresh
    dsimp only
    cases decode_token tok now with
    | error e => exact ⟨rfl, rfl⟩
    | ok payload =>
      by_cases h1 : pyTruthy payload.sub = false
      · simp [h1]
      · simp only [h1, if_false]
        by_cases h2 : (payload.type != some "refresh") = true
        · simp [h2]
        · simp only [h2, if_false, Bool.false_eq_true]
          by_cases h3 : pyTruthy payload.jti = false
          · simp [h3]
          · simp only [h3, if_false]
            cases s.get ("refresh:" ++ payload.jti.getD "") with
            | none => exact ⟨rfl, rfl⟩
            | some stored =>
              by_cases h4 : (stored != payload.sub.getD "") = true
              · simp [h4]
              · simp [h4]

/-- Inversion of a successful refresh: the run decoded the cookie, passed
the truthiness, type and jti checks, found the record under the presented
jti with the matching subject, and its final store is the original store
with that record deleted and the rotated record inserted. -/
theorem refresh_ok_inversion {strat : String} {tok : Token} {s : Store}
    {now : Nat} {aJti rJti : String} {resp : RefreshSuccess}
    (hok : (refresh strat (some tok) s now aJti rJti).outcome = .ok resp) :
    ∃ payload, decode_token tok now = .ok payload ∧
      pyTruthy payload.sub = true ∧
      payload.type = some "refresh" ∧
      pyTruthy payload.jti = true ∧
      s.get ("refresh:" ++ payload.jti.getD "") = some (payload.sub.getD "") ∧
      (refresh strat (some tok) s now aJti rJti).store =
        (s.del ("refresh:" ++ payload.jti.getD "")).setex
          ("refresh:" ++ rJti) refreshTTLSeconds (payload.sub.getD "") := by
  unfold refresh at hok ⊢
  dsimp only at hok ⊢
  cases hdec : decode_token tok now with
  | error e => rw [hdec] at hok; exact absurd hok (by simp)
  | ok payload =>
    rw [hdec] at hok
    dsimp only at hok ⊢
    refine ⟨payload, rfl, ?_⟩
    by_cases h1 : pyTruthy payload.sub = false
    · simp [h1] at hok
    · simp only [h1, if_false] at hok
      by_cases h2 : (payload.type != some "refresh") = true
      · simp [h2] at hok
      · simp only [h2, if_false, Bool.false_eq_true] at hok
        by_cases h3 : pyTruthy payload.jti = false
        · simp [h3] at hok
        · simp only [h3, if_false] at hok
          cases hget : s.get ("refresh:" ++ payload.jti.getD "") with
          | none => rw [hget] at hok; exact absurd hok (by simp)
          | some stored =>
            rw [hget] at hok
            by_cases h4 : (stored != payload.sub.getD "") = true
            · simp [h4] at hok
            · have hst : stored = payload.sub.getD "" := by simpa using h4
              subst hst
              refine ⟨by simpa using h1, by simpa using h2, by simpa using h3,
                rfl, ?_⟩
              rw [if_neg h1, if_neg h2, if_neg h3]
              dsimp only
              rw [if_neg h4]
              rfl

/-- C2: after a successful rotation consumed the refresh token with jti
`old`, presenting the same token again (sequentially, at any later time
at which its signature and expiry are still valid) is rejected with
`401 "Token already used or revoked"`.  The hypothesis `hfresh` states
that the rotation stored its new record under a different jti (the fresh
uuid draw differs from the consumed jti). -/
theorem refresh_old_token_rejected_after_rotation (strat strat₂ : String)
    (tok : Token) (s : Store) (now now₂ : Nat)
    (aJti rJti aJti₂ rJti₂ : String) (resp : RefreshSuccess)
    (hok : (refresh strat (some tok) s now aJti rJti).outcome = .ok resp)
    (hfresh : rJti ≠ tok.payload.jti.getD "")
    (hexp : ∀ e, tok.payload.exp = some e → ¬(e ≤ now₂)) :
    (refresh strat₂ (some tok)
        (refresh strat (some tok) s now aJti rJti).store
        now₂ aJti₂ rJti₂).outcome =
      .error ⟨401, "Token already used or revoked"⟩ := by
  obtain ⟨payload, hdec, h1, h2, h3, hget, hstore⟩ := refresh_ok_inversion hok
  have hpay : payload = tok.payload := decode_token_ok_payload hdec
  rw [hstore]
  unfold refresh
  dsimp only
  rw [decode_token_ok_later hdec now₂ hexp, ← hpay]
  dsimp only
  rw [if_neg (by simp [h1]), if_neg (by simp [h2]), if_neg (by simp [h3])]
  have hkey : "refresh:" ++ payload.jti.getD "" ≠ "refresh:" ++ rJti := by
    intro hc
    exact hfresh (hpay ▸ (String.append_left_cancel hc).symm)
  have hnone : ((s.del ("refresh:" ++ payload.jti.getD "")).setex
      ("refresh:" ++ rJti) refreshTTLSeconds (payload.sub.getD "")).get
      ("refresh:" ++ payload.jti.getD "") = none := by
    rw [Store.get_setex_ne _ _ _ _ _ hkey, Store.get_del_self]
  rw [hnone]

/-- C1 counterexample: the refresh endpoint reads the record with `GET`
(auth.py line 227) and deletes it with a separate `DEL` (line 259), not
with one atomic read-and-delete primitive.  Concretely, with the record
`refresh:j → 1` present, two concurrent requests presenting the same
token can interleave as get/get/check/del/setex/check/del/setex and then
BOTH finish successfully — contradicting that exactly one of them
succeeds and the rest are rejected with TokenReusedOrRevoked. -/
theorem refresh_race_two_successes :
    ((runTwo ⟨[("refresh:j", "1", refreshTTLSeconds)]⟩
        ⟨"1", "j", "na", .pGet⟩ ⟨"1", "j", "nb", .pGet⟩
        [true, false, true, true, true, false, false, false]).2.1.phase =
      .pDone) ∧
    ((runTwo ⟨[("refresh:j", "1", refreshTTLSeconds)]⟩
        ⟨"1", "j", "na", .pGet⟩ ⟨"1", "j", "nb", .pGet⟩
        [true, false, true, true, true, false, false, false]).2.2.phase =
      .pDone) := by
  constructor <;> rfl

/-- C1 (amended): the store record for a presented jti is read and
deleted by two separate store operations (`GET` then `DEL`), not by one
atomic primitive.  When two refresh requests presenting the same issued
jti execute serially, exactly one succeeds and the other is rejected with
`401 "Token already used or revoked"`; but there exists a concurrent
interleaving (both requests `GET` before the first `DEL`) in which both
succeed. -/
theorem refresh_rotation_serial_vs_concurrent (sub j na nb : String)
    (s : Store) (hget : s.get ("refresh:" ++ j) = some sub) (hna : na ≠ j) :
    ((runTwo s ⟨sub, j, na, .pGet⟩ ⟨sub, j, nb, .pGet⟩
        [true, true, true, true, false, false]).2.1.phase = .pDone ∧
     (runTwo s ⟨sub, j, na, .pGet⟩ ⟨sub, j, nb, .pGet⟩
        [true, true, true, true, false, false]).2.2.phase =
       .pFail ⟨401, "Token already used or revoked"⟩) ∧
    ((runTwo s ⟨sub, j, na, .pGet⟩ ⟨sub, j, nb, .pGet⟩
        [true, false, true, true, true, false, false, false]).2.1.phase =
       .pDone ∧
     (runTwo s ⟨sub, j, na, .pGet⟩ ⟨sub, j, nb, .pGet⟩
        [true, false, true, true, true, false, false, false]).2.2.phase =
       .pDone) := by
  have hkey : "refresh:" ++ j ≠ "refresh:" ++ na :=
    String.append_ne_of_ne (fun hc => hna hc.symm)
  have hnone : ((s.del ("refresh:" ++ j)).setex ("refresh:" ++ na)
      refreshTTLSeconds sub).get ("refresh:" ++ j) = none := by
    rw [Store.get_setex_ne _ _ _ _ _ hkey, Store.get_del_self]
  refine ⟨⟨?_, ?_⟩, ?_, ?_⟩ <;>
    simp [runTwo, stepReq, hget, hnone]

/-- C1 witness: the amended claim at a concrete store holding
`refresh:j → 1` and two concrete requests. -/
theorem refresh_rotation_serial_vs_concurrent_witness :
    ((runTwo ⟨[("refresh:j", "1", refreshTTLSeconds)]⟩
        ⟨"1", "j", "na", .pGet⟩ ⟨"1", "j", "nb", .pGet⟩
        [true, true, true, true, false, false]).2.1.phase = .pDone ∧
     (runTwo ⟨[("refresh:j", "1", refreshTTLSeconds)]⟩
        ⟨"1", "j", "na", .pGet⟩ ⟨"1", "j", "nb", .pGet⟩
        [true, true, true, true, false, false]).2.2.phase =
       .pFail ⟨401, "Token already used or revoked"⟩) :=
  (refresh_rotation_serial_vs_concurrent "1" "j" "na" "nb"
    ⟨[("refresh:j", "1", refreshTTLSeconds)]⟩ rfl (by decide)).1

/-- C2 witness: a concrete issued token is rotated successfully once and
its second presentation is rejected as reused. -/
theorem refresh_old_token_rejected_after_rotation_witness :
    (refresh "family"
        (some ⟨⟨some "1", some "refresh", some "j", some 0,
          some refreshTTLSeconds⟩, jwtSecret⟩)
        (refresh "nuclear"
          (some ⟨⟨some "1", some "refresh", some "j", some 0,
            some refreshTTLSeconds⟩, jwtSecret⟩)
          ⟨[("refresh:j", "1", refreshTTLSeconds)]⟩ 0 "a1" "r2").store
        1 "a3" "r4").outcome =
      .error ⟨401, "Token already used or revoked"⟩ :=
  refresh_old_token_rejected_after_rotation "nuclear" "family"
    ⟨⟨some "1", some "refresh", some "j", some 0,
      some refreshTTLSeconds⟩, jwtSecret⟩
    ⟨[("refresh:j", "1", refreshTTLSeconds)]⟩ 0 1 "a1" "r2" "a3" "r4"
    ⟨(create_access "1" "a1" 0).1, "bearer", accessTTLSeconds,
      (create_refresh "1" "r2" 0).1⟩
    rfl (by decide)
    (by
      intro e he
      have he2 : e = refreshTTLSeconds := by
        simpa using he.symm
      subst he2
      decide)

-- CounterStore lemmas --------------------------------------------------------

theorem List.find?_map_ite_self (l : List (String × Nat × Option Nat))
    (k : String) (f : String × Nat × Option Nat → Nat × Option Nat) :
    (l.map (fun e => if e.1 == k then (e.1, f e) else e)).find?
      (fun e => e.1 == k) =
      (l.find? (fun e => e.1 == k)).map (fun e => (e.1, f e)) := by
  induction l with
  | nil => rfl
  | cons hd tl ih =>
    rw [List.map_cons]
    by_cases hhd : hd.1 = k
    · have hb : (hd.1 == k) = true := beq_iff_eq.mpr hhd
      rw [if_pos hb,
        @List.find?_cons_of_pos _ (fun e => e.1 == k) (hd.1, f hd) _ hb,
        @List.find?_cons_of_pos _ (fun e => e.1 == k) hd tl hb]
      rfl
    · have hb : ¬((hd.1 == k) = true) := by simp [hhd]
      rw [if_neg hb,
        @List.find?_cons_of_neg _ (fun e => e.1 == k) hd _ hb,
        @List.find?_cons_of_neg _ (fun e => e.1 == k) hd tl hb, ih]

theorem List.find?_map_ite_ne (l : List (String × Nat × Option Nat))
    (k k₂ : String) (h : k₂ ≠ k)
    (f : String × Nat × Option Nat → Nat × Option Nat) :
    (l.map (fun e => if e.1 == k then (e.1, f e) else e)).find?
      (fun e => e.1 == k₂) =
      l.find? (fun e => e.1 == k₂) := by
  induction l with
  | nil => rfl
  | cons hd tl ih =>
    rw [List.map_cons]
    by_cases hhd : hd.1 = k
    · have hb : (hd.1 == k) = true := beq_iff_eq.mpr hhd
      have hb2 : ¬((hd.1 == k₂) = true) := by
        simp only [beq_iff_eq, hhd]
        exact fun hc => h hc.symm
      rw [if_pos hb,
        @List.find?_cons_of_neg _ (fun e => e.1 == k₂) (hd.1, f hd) _ hb2,
        @List.find?_cons_of_neg _ (fun e => e.1 == k₂) hd tl hb2, ih]
    · have hb : ¬((hd.1 == k) = true) := by simp [hhd]
      rw [if_neg hb]
      by_cases hb2 : (hd.1 == k₂) = true
      · rw [@List.find?_cons_of_pos _ (fun e => e.1 == k₂) hd _ hb2,
          @List.find?_cons_of_pos _ (fun e => e.1 == k₂) hd tl hb2]
      · rw [@List.find?_cons_of_neg _ (fun e => e.1 == k₂) hd _ hb2,
          @List.find?_cons_of_neg _ (fun e => e.1 == k₂) hd tl hb2, ih]

theorem CounterStore.incr_val (s : CounterStore) (k : String) :
    (s.incr k).1 = (s.get k).getD 0 + 1 := by
  unfold CounterStore.incr
  cases h : s.get k <;> simp [h]

theorem CounterStore.get_incr_self (s : CounterStore) (k : String) :
    (s.incr k).2.get k = some ((s.get k).getD 0 + 1) := by
  unfold CounterStore.incr
  cases h : s.get k with
  | none =>
    simp only [h]
    unfold CounterStore.get
    simp [List.find?]
  | some v =>
    simp only [h]
    unfold CounterStore.get at h ⊢
    rw [List.find?_map_ite_self]
    cases hf : s.entries.find? (fun e => e.1 == k) with
    | none => rw [hf] at h; exact absurd h (by simp)
    | some e0 =>
      rw [hf] at h
      simp at h
      simp [h]

theorem CounterStore.get_incr_ne (s : CounterStore) (k k₂ : String)
    (h : k₂ ≠ k) : (s.incr k).2.get k₂ = s.get k₂ := by
  unfold CounterStore.incr
  cases hg : s.get k with
  | none =>
    have hb : (k == k₂) = false := by
      simp only [beq_eq_false_iff_ne, ne_eq]
      exact fun hc => h hc.symm
    unfold CounterStore.get
    simp [List.find?, hb]
  | some v =>
    unfold CounterStore.get
    rw [List.find?_map_ite_ne _ _ _ h]

theorem CounterStore.get_expire_self (s : CounterStore) (k : String)
    (secs : Nat) : (s.expire k secs).get k = s.get k := by
  unfold CounterStore.get CounterStore.expire
  rw [List.find?_map_ite_self]
  cases s.entries.find? (fun e => e.1 == k) <;> rfl

theorem CounterStore.get_expire_ne (s : CounterStore) (k k₂ : String)
    (secs : Nat) (h : k₂ ≠ k) : (s.expire k secs).get k₂ = s.get k₂ := by
  unfold CounterStore.get CounterStore.expire
  rw [List.find?_map_ite_ne _ _ _ h]

theorem CounterStore.expiryOf_expire_self (s : CounterStore) (k : String)
    (secs : Nat) (v : Nat) (h : s.get k = some v) :
    (s.expire k secs).expiryOf k = some (some secs) := by
  unfold CounterStore.get at h
  unfold CounterStore.expiryOf CounterStore.expire
  rw [List.find?_map_ite_self]
  cases hf : s.entries.find? (fun e => e.1 == k) with
  | none => rw [hf] at h; exact absurd h (by simp)
  | some e0 => rfl

theorem CounterStore.get_setexNat_self (s : CounterStore) (k : String)
    (secs v : Nat) : (s.setex k secs v).get k = some v := by
  unfold CounterStore.get CounterStore.setex
  simp [List.find?]

theorem CounterStore.get_setexNat_ne (s : CounterStore) (k k₂ : String)
    (secs v : Nat) (h : k₂ ≠ k) :
    (s.setex k secs v).get k₂ = s.get k₂ := by
  unfold CounterStore.get CounterStore.setex
  have hb : (k == k₂) = false := by
    simp only [beq_eq_false_iff_ne, ne_eq]
    exact fun hc => h hc.symm
  simp only [List.find?, hb]
  exact congrArg _ (List.find?_filter_of_key_ne _ _ _ h)

theorem CounterStore.expiryOf_setex_self (s : CounterStore) (k : String)
    (secs v : Nat) : (s.setex k secs v).expiryOf k = some (some secs) := by
  unfold CounterStore.expiryOf CounterStore.setex
  simp [List.find?]

theorem CounterStore.expiryOf_setex_ne (s : CounterStore) (k k₂ : String)
    (secs v : Nat) (h : k₂ ≠ k) :
    (s.setex k secs v).expiryOf k₂ = s.expiryOf k₂ := by
  unfold CounterStore.expiryOf CounterStore.setex
  have hb : (k == k₂) = false := by
    simp only [beq_eq_false_iff_ne, ne_eq]
    exact fun hc => h hc.symm
  simp only [List.find?, hb]
  exact congrArg _ (List.find?_filter_of_key_ne _ _ _ h)

theorem CounterStore.expiryOf_incr_self (s : CounterStore) (k : String) :
    ∃ t, (s.incr k).2.expiryOf k = some t := by
  unfold CounterStore.incr
  cases h : s.get k with
  | none =>
    unfold CounterStore.expiryOf
    exact ⟨none, by simp [List.find?]⟩
  | some v =>
    unfold CounterStore.get at h
    unfold CounterStore.expiryOf
    rw [List.find?_map_ite_self]
    cases hf : s.entries.find? (fun e => e.1 == k) with
    | none => rw [hf] at h; exact absurd h (by simp)
    | some e0 => exact ⟨e0.2.2, rfl⟩

theorem penalty_key_ne (k : String) : k ++ ":penalty" ≠ k := by
  intro h
  have h2 := congrArg String.length h
  rw [String.length_append] at h2
  have h3 : (":penalty").length = 8 := rfl
  omega

theorem checkBucket_allowed_spec (times seconds : Nat) (s : CounterStore)
    (k : String) (h : (s.get k).getD 0 + 1 ≤ times) :
    ∃ s1, checkBucket times seconds s k = .allowed s1 ∧
      s1.get k = some ((s.get k).getD 0 + 1) ∧
      ((s.get k).getD 0 + 1 = 1 → s1.expiryOf k = some (some seconds)) ∧
      s1.get (k ++ ":penalty") = s.get (k ++ ":penalty") := by
  have hpk := penalty_key_ne k
  unfold checkBucket
  dsimp only
  rw [CounterStore.incr_val]
  have hnotgt : ¬((s.get k).getD 0 + 1 > times) := by omega
  by_cases hc : (s.get k).getD 0 + 1 = 1
  · have hb : (((s.get k).getD 0 + 1) == 1) = true := beq_iff_eq.mpr hc
    simp only [hb, if_true, hnotgt, if_false]
    refine ⟨_, rfl, ?_, ?_, ?_⟩
    · rw [CounterStore.get_expire_self, CounterStore.get_incr_self]
    · intro _
      exact CounterStore.expiryOf_expire_self _ _ _ _
        (CounterStore.get_incr_self s k)
    · rw [CounterStore.get_expire_ne _ _ _ _ hpk,
        CounterStore.get_incr_ne _ _ _ hpk]
  · have hb : (((s.get k).getD 0 + 1) == 1) = false := by
      simp only [beq_eq_false_iff_ne, ne_eq]
      exact hc
    simp only [hb, if_false, hnotgt, Bool.false_eq_true]
    refine ⟨_, rfl, CounterStore.get_incr_self s k, fun hc2 => absurd hc2 hc,
      CounterStore.get_incr_ne _ _ _ hpk⟩

theorem checkBucket_rejected_spec (times seconds : Nat) (s : CounterStore)
    (k : String) (h : (s.get k).getD 0 + 1 > times) :
    ∃ s2, checkBucket times seconds s k =
        .rejected (seconds * min (2 ^ (s.get (k ++ ":penalty")).getD 0) 8) s2 ∧
      s2.get k = some ((s.get k).getD 0 + 1) ∧
      ((s.get k).getD 0 + 1 = 1 → s2.expiryOf k = some (some seconds)) ∧
      s2.get (k ++ ":penalty") = some ((s.get (k ++ ":penalty")).getD 0 + 1) ∧
      s2.expiryOf (k ++ ":penalty") = some (some (seconds * 10)) := by
  have hpk := penalty_key_ne k
  unfold checkBucket
  dsimp only
  rw [CounterStore.incr_val]
  by_cases hc : (s.get k).getD 0 + 1 = 1
  · have hb : (((s.get k).getD 0 + 1) == 1) = true := beq_iff_eq.mpr hc
    have hpen : ((s.incr k).2.expire k seconds).get (k ++ ":penalty") =
        s.get (k ++ ":penalty") := by
      rw [CounterStore.get_expire_ne _ _ _ _ hpk,
        CounterStore.get_incr_ne _ _ _ hpk]
    simp only [hb, if_true, h, if_pos, hpen]
    refine ⟨_, rfl, ?_, ?_, ?_, ?_⟩
    · rw [CounterStore.get_setexNat_ne _ _ _ _ _ hpk.symm,
        CounterStore.get_expire_self, CounterStore.get_incr_self]
    · intro _
      rw [CounterStore.expiryOf_setex_ne _ _ _ _ _ hpk.symm]
      exact CounterStore.expiryOf_expire_self _ _ _ _
        (CounterStore.get_incr_self s k)
    · exact CounterStore.get_setexNat_self _ _ _ _
    · exact CounterStore.expiryOf_setex_self _ _ _ _
  · have hb : (((s.get k).getD 0 + 1) == 1) = false := by
      simp only [beq_eq_false_iff_ne, ne_eq]
      exact hc
    have hpen : (s.incr k).2.get (k ++ ":penalty") =
        s.get (k ++ ":penalty") := CounterStore.get_incr_ne _ _ _ hpk
    simp only [hb, if_false, h, if_pos, hpen, Bool.false_eq_true]
    refine ⟨_, rfl, ?_, fun hc2 => absurd hc2 hc, ?_, ?_⟩
    · rw [CounterStore.get_setexNat_ne _ _ _ _ _ hpk.symm,
        CounterStore.get_incr_self]
    · exact CounterStore.get_setexNat_self _ _ _ _
    · exact CounterStore.expiryOf_setex_self _ _ _ _

/-- C5: per bucket key, each request increments the counter; if the
post-increment value is 1 the counter expiry is set to the window
`seconds`; if the value exceeds `times`, the limiter reads the penalty
counter `p` for the key (0 if absent), rejects with `retryAfter =
seconds * min(2 ^ p, 8)`, and stores `p + 1` in the penalty counter with
expiry `10 * seconds` — so two consecutive violations starting with no
penalty yield retryAfter values `seconds * 1` then `seconds * 2` (ratio
1:2), and every retryAfter is capped at `seconds * 8`. -/
theorem rate_limit_bucket_algorithm (times seconds : Nat) (s : CounterStore)
    (k : String) :
    (∀ ra s2, checkBucket times seconds s k = .rejected ra s2 →
      ra ≤ seconds * 8) ∧
    ((s.get k).getD 0 + 1 ≤ times →
      ∃ s1, checkBucket times seconds s k = .allowed s1 ∧
        s1.get k = some ((s.get k).getD 0 + 1) ∧
        ((s.get k).getD 0 + 1 = 1 → s1.expiryOf k = some (some seconds)) ∧
        s1.get (k ++ ":penalty") = s.get (k ++ ":penalty")) ∧
    ((s.get k).getD 0 + 1 > times →
      ∃ s2, checkBucket times seconds s k =
          .rejected (seconds * min (2 ^ (s.get (k ++ ":penalty")).getD 0) 8)
            s2 ∧
        s2.get k = some ((s.get k).getD 0 + 1) ∧
        ((s.get k).getD 0 + 1 = 1 → s2.expiryOf k = some (some seconds)) ∧
        s2.get (k ++ ":penalty") =
          some ((s.get (k ++ ":penalty")).getD 0 + 1) ∧
        s2.expiryOf (k ++ ":penalty") = some (some (seconds * 10))) ∧
    (s.get (k ++ ":penalty") = none → (s.get k).getD 0 + 1 > times →
      ∃ s2 s3, checkBucket times seconds s k = .rejected (seconds * 1) s2 ∧
        checkBucket times seconds s2 k = .rejected (seconds * 2) s3) := by
  refine ⟨?_, checkBucket_allowed_spec times seconds s k,
    checkBucket_rejected_spec times seconds s k, ?_⟩
  · intro ra s2 hrej
    unfold checkBucket at hrej
    dsimp only at hrej
    by_cases hgt : (s.incr k).1 > times
    · rw [if_pos hgt] at hrej
      have : ra = seconds * min (2 ^ (((if (s.incr k).1 == 1 then
          (s.incr k).2.expire k seconds else (s.incr k).2).get
          (k ++ ":penalty")).getD 0)) 8 := by
        cases hrej
        rfl
      rw [this]
      exact Nat.mul_le_mul_left seconds (Nat.min_le_right _ _)
    · rw [if_neg hgt] at hrej
      exact absurd hrej (by simp)
  · intro hpen hgt
    obtain ⟨s2, hrej1, hk2, _, hpk2, _⟩ :=
      checkBucket_rejected_spec times seconds s k hgt
    rw [hpen] at hrej1 hpk2
    obtain ⟨s3, hrej2, _, _, _, _⟩ :=
      checkBucket_rejected_spec times seconds s2 k
        (by rw [hk2]; simp only [Option.getD_some]; omega)
    rw [hpk2] at hrej2
    refine ⟨s2, s3, ?_, ?_⟩
    · simpa using hrej1
    · simpa using hrej2

/-- C5 witness: the claim at `times = 1`, `seconds = 60`, a bucket whose
counter is already at 1 and no penalty recorded: the violating request is
rejected with retryAfter 60, the next with 120. -/
theorem rate_limit_bucket_algorithm_witness :
    ∃ s2 s3,
      checkBucket 1 60 ⟨[("k", 1, some 60)]⟩ "k" = .rejected (60 * 1) s2 ∧
      checkBucket 1 60 s2 "k" = .rejected (60 * 2) s3 :=
  (rate_limit_bucket_algorithm 1 60 ⟨[("k", 1, some 60)]⟩ "k").2.2.2
    rfl (by decide)

/-- C6: when the shared store is unreachable — the module client is
uninitialized, or store operations fail with a Redis error — the rate
limiter lets the request proceed (fail-open) with the store state
untouched; and a genuine rate-limit rejection computed against a healthy
store is propagated to the caller as a 429, not swallowed. -/
theorem rate_limiter_fail_open (client : Option RedisClient)
    (times seconds : Nat) (keys : List String) :
    (client = none →
      rateLimiterCall client times seconds keys = .proceed none) ∧
    (∀ c, client = some c → c.healthy = false →
      rateLimiterCall client times seconds keys = .proceed (some c)) ∧
    (∀ c ra s1, client = some c → c.healthy = true →
      checkBuckets times seconds c.state keys = .rejected ra s1 →
      rateLimiterCall client times seconds keys =
        .tooManyRequests ra (some ⟨s1, true⟩)) := by
  refine ⟨?_, ?_, ?_⟩
  · intro h
    subst h
    rfl
  · intro c hc hh
    subst hc
    unfold rateLimiterCall
    simp [hh]
  · intro c ra s1 hc hh hrej
    subst hc
    unfold rateLimiterCall
    simp [hh, hrej]

/-- C6 witness: a client marked unhealthy lets the request through
unchanged; a healthy client over its limit propagates the 429 with its
retry hint. -/
theorem rate_limiter_fail_open_witness :
    rateLimiterCall (some ⟨⟨[]⟩, false⟩) 5 60 ["k"] =
      .proceed (some ⟨⟨[]⟩, false⟩) ∧
    rateLimiterCall (some ⟨⟨[]⟩, true⟩) 0 60 ["k"] =
      .tooManyRequests 60
        (some ⟨⟨[("k:penalty", 1, some 600), ("k", 1, some 60)]⟩, true⟩) :=
  ⟨(rate_limiter_fail_open (some ⟨⟨[]⟩, false⟩) 5 60 ["k"]).2.1
      ⟨⟨[]⟩, false⟩ rfl rfl,
    (rate_limiter_fail_open (some ⟨⟨[]⟩, true⟩) 0 60 ["k"]).2.2
      ⟨⟨[]⟩, true⟩ 60 ⟨[("k:penalty", 1, some 600), ("k", 1, some 60)]⟩
      rfl rfl (by decide)⟩

-- Key pattern lemmas for family revocation -----------------------------------

theorem List.find?_filter_of_pred_true {α : Type} (l : List (String × α))
    (p : String × α → Bool) (k : String) (h : ∀ e, e.1 = k → p e = true) :
    (l.filter p).find? (fun e => e.1 == k) = l.find? (fun e => e.1 == k) := by
  induction l with
  | nil => rfl
  | cons hd tl ih =>
    by_cases hhd : hd.1 = k
    · have hp : p hd = true := h hd hhd
      have hb : ((hd.1 == k) : Bool) = true := beq_iff_eq.mpr hhd
      simp only [List.filter, hp]
      rw [@List.find?_cons_of_pos _ (fun e => e.1 == k) hd _ hb,
        @List.find?_cons_of_pos _ (fun e => e.1 == k) hd tl hb]
    · have hb : ¬(((hd.1 == k) : Bool) = true) := by simp [hhd]
      by_cases hp : p hd = true
      · simp only [List.filter, hp]
        rw [@List.find?_cons_of_neg _ (fun e => e.1 == k) hd _ hb,
          @List.find?_cons_of_neg _ (fun e => e.1 == k) hd tl hb, ih]
      · have hp2 : p hd = false := Bool.eq_false_iff.mpr hp
        simp only [List.filter, hp2]
        rw [@List.find?_cons_of_neg _ (fun e => e.1 == k) hd tl hb, ih]

theorem List.find?_filter_none_of_none {α : Type} (l : List (String × α))
    (p : String × α → Bool) (k : String)
    (h : l.find? (fun e => e.1 == k) = none) :
    (l.filter p).find? (fun e => e.1 == k) = none :=
  List.find?_eq_none.mpr
    (fun x hx => (List.find?_eq_none.mp h) x (List.mem_of_mem_filter hx))

theorem colonfree_suffix_aux {f g K : List Char}
    (hg : ':' ∉ g) (hlen : f.length ≤ g.length)
    (h1 : ":family:".data ++ f <:+ K) (h2 : ":family:".data ++ g <:+ K) :
    f = g := by
  have h12 : ":family:".data ++ f <:+ ":family:".data ++ g := by
    rcases List.suffix_or_suffix_of_suffix h1 h2 with h | h
    · exact h
    · rw [h.eq_of_length_le (by simpa using hlen)]
  have hf2 : f <:+ ":family:".data ++ g :=
    (List.suffix_append (":family:").data f).trans h12
  obtain ⟨u, hu⟩ := hf2
  have hul : (":family:").data.length ≤ u.length := by
    have hl := congrArg List.length hu
    rw [List.length_append, List.length_append] at hl
    have h8 : (":family:").data.length = 8 := by decide
    omega
  have hu_take : u.take 8 = ":family:".data := by
    have ht := congrArg (List.take 8) hu
    rw [List.take_append_of_le_length (by
      have h8 : (":family:").data.length = 8 := by decide
      omega),
      List.take_append_of_le_length (by decide)] at ht
    rw [ht]
    decide
  have hu2 : u = ":family:".data ++ u.drop 8 := by
    conv =>
      lhs
      rw [← List.take_append_drop 8 u]
    rw [hu_take]
  have hg2 : u.drop 8 ++ f = g := by
    have h3 := hu
    rw [hu2, List.append_assoc] at h3
    exact List.append_cancel_left h3
  by_cases hnil : u.drop 8 = []
  · rw [hnil] at hg2
    simpa using hg2
  · exfalso
    obtain ⟨t, ht⟩ := h12
    rw [← hg2, ← List.append_assoc, ← List.append_assoc] at ht
    have ht3 : t ++ ":family:".data = ":family:".data ++ u.drop 8 :=
      List.append_cancel_right ht
    have hlast : (t ++ ":family:".data).getLast? = some ':' := by
      rw [List.getLast?_append_of_ne_nil t (by decide)]
      decide
    rw [ht3, List.getLast?_append_of_ne_nil _ hnil] at hlast
    have hmem : ':' ∈ u.drop 8 :=
      List.mem_of_mem_getLast? (Option.mem_def.mpr hlast)
    exact hg (hg2 ▸ List.mem_append.mpr (Or.inl hmem))

theorem colonfree_suffix_unique {f g : String} {K : List Char}
    (hf : ':' ∉ f.data) (hg : ':' ∉ g.data)
    (h1 : (":family:" ++ f).data <:+ K) (h2 : (":family:" ++ g).data <:+ K) :
    f = g := by
  rw [String.data_append] at h1 h2
  rcases Nat.le_total f.data.length g.data.length with hle | hle
  · exact String.ext (colonfree_suffix_aux hg hle h1 h2)
  · exact (String.ext (colonfree_suffix_aux hf hle h2 h1)).symm

theorem matchesFamilyPattern_tokenKey_self (j f : String) :
    matchesFamilyPattern f (tokenKey j f) = true := by
  unfold matchesFamilyPattern tokenKey
  rw [Bool.and_eq_true, Bool.and_eq_true]
  refine ⟨⟨?_, ?_⟩, ?_⟩
  · rw [List.isPrefixOf_iff_prefix]
    rw [String.data_append, String.data_append, String.data_append,
      List.append_assoc, List.append_assoc]
    exact List.prefix_append _ _
  · rw [List.isSuffixOf_iff_suffix]
    rw [String.data_append, String.data_append, String.data_append,
      String.data_append, List.append_assoc]
    exact List.suffix_append _ _
  · have hl : ("refresh:" ++ j ++ ":family:" ++ f).length =
        8 + j.length + 8 + f.length := by
      rw [String.length_append, String.length_append, String.length_append]
      have h1 : ("refresh:").length = 8 := rfl
      have h2 : (":family:").length = 8 := rfl
      omega
    rw [decide_eq_true_eq, hl]
    omega

theorem matchesFamilyPattern_famKey (f g : String) :
    matchesFamilyPattern f (famKey g) = false := by
  unfold matchesFamilyPattern famKey
  have h : ("refresh:").data.isPrefixOf ("family:" ++ g).data = false := by
    rw [String.data_append]
    rfl
  rw [h]
  rfl

theorem matchesFamilyPattern_tokenKey_ne (j g f : String) (hne : g ≠ f)
    (hf : ':' ∉ f.data) (hg : ':' ∉ g.data) :
    matchesFamilyPattern f (tokenKey j g) = false := by
  cases hm : matchesFamilyPattern f (tokenKey j g) with
  | false => rfl
  | true =>
    exfalso
    unfold matchesFamilyPattern at hm
    rw [Bool.and_eq_true, Bool.and_eq_true] at hm
    have hsuf : (":family:" ++ f).data <:+ (tokenKey j g).data := by
      rw [← List.isSuffixOf_iff_suffix]
      exact hm.1.2
    have hsuf2 : (":family:" ++ g).data <:+ (tokenKey j g).data := by
      unfold tokenKey
      rw [String.data_append, String.data_append, String.data_append,
        String.data_append, List.append_assoc]
      exact List.suffix_append _ _
    exact hne (colonfree_suffix_unique hg hf hsuf2 hsuf)

theorem tokenKey_ne_famKey (j g f : String) : tokenKey j g ≠ famKey f := by
  intro h
  have h2 : (tokenKey j g).data.head? = (famKey f).data.head? :=
    congrArg (fun s => s.data.head?) h
  have h3 : (tokenKey j g).data.head? = some 'r' := rfl
  have h4 : (famKey f).data.head? = some 'f' := rfl
  rw [h3, h4] at h2
  simp at h2

theorem famKey_ne_of_ne {g f : String} (h : g ≠ f) : famKey g ≠ famKey f :=
  String.append_ne_of_ne h

/-- C9: `revoke_family f` deletes the family-to-subject mapping of `f` and
every stored refresh record referencing `f` (for every jti `j` the key
`refresh:{j}:family:{f}` matches the scan pattern and is removed), and
leaves the family mapping and the refresh records of every other family
`g` — including other families of the same subject — unchanged.  Family
ids and jtis are uuid4 strings, hence contain no `:`; the frame part
assumes only that the two family ids are colon-free. -/
theorem revoke_family_scoped (s : Store) (f : String) :
    ((revoke_family s f).get (famKey f) = none) ∧
    (∀ j, (revoke_family s f).get (tokenKey j f) = none) ∧
    (∀ g, g ≠ f → ':' ∉ f.data → ':' ∉ g.data →
      ((revoke_family s f).get (famKey g) = s.get (famKey g)) ∧
      (∀ j, ':' ∉ j.data →
        (revoke_family s f).get (tokenKey j g) = s.get (tokenKey j g))) := by
  refine ⟨?_, ?_, ?_⟩
  · show Store.get ⟨List.filter _ (s.del (famKey f)).entries⟩ (famKey f) = none
    unfold Store.get
    rw [List.find?_filter_none_of_none]
    · rfl
    · have h := Store.get_del_self s (famKey f)
      unfold Store.get at h
      exact Option.map_eq_none.mp h
  · intro j
    show Store.get ⟨List.filter _ (s.del (famKey f)).entries⟩ (tokenKey j f) =
      none
    unfold Store.get
    rw [List.find?_filter_none]
    · rfl
    · intro e hp hk
      rw [hk] at hp
      rw [matchesFamilyPattern_tokenKey_self j f] at hp
      exact absurd hp (by decide)
  · intro g hne hf hg
    constructor
    · show Store.get ⟨List.filter _ (s.del (famKey f)).entries⟩ (famKey g) =
        s.get (famKey g)
      unfold Store.get
      rw [List.find?_filter_of_pred_true]
      · have h := Store.get_del_ne s (famKey f) (famKey g) (famKey_ne_of_ne hne)
        unfold Store.get at h
        exact h
      · intro e hk
        rw [hk, matchesFamilyPattern_famKey]
        rfl
    · intro j hj
      show Store.get ⟨List.filter _ (s.del (famKey f)).entries⟩
        (tokenKey j g) = s.get (tokenKey j g)
      unfold Store.get
      rw [List.find?_filter_of_pred_true]
      · have h := Store.get_del_ne s (famKey f) (tokenKey j g)
          (tokenKey_ne_famKey j g f)
        unfold Store.get at h
        exact h
      · intro e hk
        rw [hk, matchesFamilyPattern_tokenKey_ne j g f hne hf hg]
        rfl

/-- C9 witness: revoking family `f1` on a concrete store leaves the
family mapping and the refresh record of family `f2` unchanged. -/
theorem revoke_family_scoped_witness :
    ((revoke_family ⟨[("family:f1", "1", 100), ("family:f2", "1", 100),
        ("refresh:j1:family:f1", "1:f1", 100),
        ("refresh:j2:family:f2", "1:f2", 100)]⟩ "f1").get (famKey "f2") =
      (⟨[("family:f1", "1", 100), ("family:f2", "1", 100),
        ("refresh:j1:family:f1", "1:f1", 100),
        ("refresh:j2:family:f2", "1:f2", 100)]⟩ : Store).get (famKey "f2")) ∧
    ((revoke_family ⟨[("family:f1", "1", 100), ("family:f2", "1", 100),
        ("refresh:j1:family:f1", "1:f1", 100),
        ("refresh:j2:family:f2", "1:f2", 100)]⟩ "f1").get
          (tokenKey "j2" "f2") =
      (⟨[("family:f1", "1", 100), ("family:f2", "1", 100),
        ("refresh:j1:family:f1", "1:f1", 100),
        ("refresh:j2:family:f2", "1:f2", 100)]⟩ : Store).get
          (tokenKey "j2" "f2")) := by
  have h := (revoke_family_scoped ⟨[("family:f1", "1", 100),
    ("family:f2", "1", 100), ("refresh:j1:family:f1", "1:f1", 100),
    ("refresh:j2:family:f2", "1:f2", 100)]⟩ "f1").2.2 "f2"
    (by decide) (by decide) (by decide)
  exact ⟨h.1, h.2 "j2" (by decide)⟩

end Revline
